import Mathlib

/-!
Verification development for the batch copywriting workbench
(`src/lib/text.ts`, `src/lib/storage.ts`, `src/lib/openai.ts`,
`src/app/writer/WriterWorkbench.tsx`).

The TypeScript sources are embedded shallowly: strings are `List Char`
(wrapped in `String` at the interfaces), every JavaScript regular
expression is compiled by hand into an executable scanner with the same
leftmost / greedy / backtracking behaviour, and the asynchronous
orchestrator `runOne` becomes a pure state-update function parameterised
by the outcomes of the network calls it would have made.
-/

set_option maxRecDepth 4000

/-- Character class of JavaScript `\s` (also the character set removed by
`String.prototype.trim`): ASCII whitespace, NBSP, Ogham space, the
U+2000 block, line/paragraph separators, narrow/medium spaces,
ideographic space and the BOM. -/
def isJsWs (c : Char) : Bool :=
  let n := c.toNat
  (9 ≤ n && n ≤ 13) || n = 32 || n = 0xa0 || n = 0x1680 ||
  (0x2000 ≤ n && n ≤ 0x200a) || n = 0x2028 || n = 0x2029 ||
  n = 0x202f || n = 0x205f || n = 0x3000 || n = 0xfeff

/-- JavaScript `\d`: the ASCII digits only. -/
def isJsDigit (c : Char) : Bool :=
  48 ≤ c.toNat && c.toNat ≤ 57

/-- JavaScript `\w`: ASCII letters, digits and underscore. -/
def isJsWord (c : Char) : Bool :=
  isJsDigit c || (65 ≤ c.toNat && c.toNat ≤ 90) || (97 ≤ c.toNat && c.toNat ≤ 122) ||
  c.toNat = 95

/-- ASCII lower-casing, the canonicalisation used by the `i` regex flag on
the ASCII keywords that appear in the sources. -/
def lowerAscii (c : Char) : Char :=
  if 65 ≤ c.toNat && c.toNat ≤ 90 then Char.ofNat (c.toNat + 32) else c

/-- JavaScript `String.prototype.trim` on a character list. -/
def jsTrim (cs : List Char) : List Char :=
  ((cs.dropWhile isJsWs).reverse.dropWhile isJsWs).reverse

/-- Trim wrapper on `String`. -/
def jsTrimStr (s : String) : String :=
  String.mk (jsTrim s.data)

/-- Split a character list at every `'\n'`, keeping empty pieces, exactly
like `String.prototype.split("\n")`. -/
def splitLinesNL : List Char → List (List Char)
  | [] => [[]]
  | c :: rest =>
    if c = '\n' then [] :: splitLinesNL rest
    else
      match splitLinesNL rest with
      | [] => [[c]]
      | h :: t => (c :: h) :: t

/-- Join lines back with `'\n'`, the inverse direction of `splitLinesNL`
(`Array.prototype.join("\n")`). -/
def joinLinesNL (ls : List (List Char)) : List Char :=
  List.intercalate ['\n'] ls

/-- Normalisation `input.replace(/\r\n?/g, "\n")` from
`splitNumberedBlocks`: every CRLF pair and every lone CR becomes LF. -/
def normalizeEOL : List Char → List Char
  | [] => []
  | '\r' :: '\n' :: rest => '\n' :: normalizeEOL rest
  | '\r' :: rest => '\n' :: normalizeEOL rest
  | c :: rest => c :: normalizeEOL rest

/-- Separator characters of the character class `[\.|。|\)|）|、|\-]` in
`numberRegex` of `splitNumberedBlocks`.  Inside a character class the
`|` characters are literals, so the ASCII vertical bar is a member. -/
def numberSeps : List Char := ['.', '|', '。', ')', '）', '、', '-']

/-- Compiled form of `numberRegex = /^(\s*)(\d{1,3})([\.|。|\)|）|、|\-]{1})\s*/`
followed by `line.replace(numberRegex, "")`: on a match, return the line
with leading whitespace, the 1–3 digit group, the single separator and
trailing whitespace stripped; `none` when the regex does not match.
Backtracking note: `\d{1,3}` can never give up digits usefully because a
shorter digit group leaves a digit where the separator must be, so the
match succeeds exactly when the maximal digit run has length 1–3 and is
followed by a separator character. -/
def numMatchStrip (l : List Char) : Option (List Char) :=
  let r1 := l.dropWhile isJsWs
  let ds := r1.takeWhile isJsDigit
  let r2 := r1.dropWhile isJsDigit
  if 1 ≤ ds.length && ds.length ≤ 3 then
    match r2 with
    | sep :: rest => if sep ∈ numberSeps then some (rest.dropWhile isJsWs) else none
    | [] => none
  else none

/-- Test of the fallback regex `/^\s*\d+[\.|。|\)|）|、|\-]/m` at one
candidate position (which the caller knows to be a line start): leading
whitespace (which may span further lines, `\s` matches `\n`), one or
more digits, then a separator. -/
def fallbackTestHere (l : List Char) : Bool :=
  let r1 := l.dropWhile isJsWs
  let ds := r1.takeWhile isJsDigit
  let r2 := r1.dropWhile isJsDigit
  !ds.isEmpty &&
    match r2 with
    | sep :: _ => sep ∈ numberSeps
    | [] => false

/-- Line terminators recognised by the `m` regex flag (`^` matches after
any of these). -/
def isLineTerm (c : Char) : Bool :=
  c = '\n' || c = '\r' || c = '\u2028' || c = '\u2029'

/-- Multiline `test` of the fallback regex: try `fallbackTestHere` at the
string start and after every line terminator. -/
def fallbackScan : Bool → List Char → Bool
  | _, [] => false
  | atStart, c :: rest =>
    (atStart && fallbackTestHere (c :: rest)) || fallbackScan (isLineTerm c) rest

/-- One segment produced by the segmenter: `{ index, text }`. -/
structure Block where
  index : Nat
  text : String
deriving DecidableEq, Repr

/-- The `flush` closure of `splitNumberedBlocks`: join the accumulated
lines, trim, and append as a block (with index `blocks.length + 1`) when
non-empty. -/
def flushBlock (current : List (List Char)) (blocks : List Block) : List Block :=
  let text := jsTrim (joinLinesNL current)
  if text.isEmpty then blocks else blocks ++ [⟨blocks.length + 1, String.mk text⟩]

/-- The scanning loop of `splitNumberedBlocks`: on a numbered line, flush
the current accumulation (when any line was accumulated) and start a new
block from the stripped-and-trimmed line; other lines are appended
verbatim. -/
def splitLoop : List (List Char) → List (List Char) → List Block → List (List Char) × List Block
  | [], current, blocks => (current, blocks)
  | line :: rest, current, blocks =>
    match numMatchStrip line with
    | some stripped =>
      let blocks1 := if current.isEmpty then blocks else flushBlock current blocks
      splitLoop rest [jsTrim stripped] blocks1
    | none => splitLoop rest (current ++ [line]) blocks

/-- Post-processing of `splitNumberedBlocks`: trim each block, drop the
empty ones and renumber densely from 1. -/
def cleanBlocks (blocks : List Block) : List Block :=
  let trimmed := blocks.map (fun b => Block.mk b.index (jsTrimStr b.text))
  let kept := trimmed.filter (fun b => b.text.length > 0)
  kept.mapIdx (fun i b => Block.mk (i + 1) b.text)

/-- Embedding of `splitNumberedBlocks` from `src/lib/text.ts`: normalise
line endings, split into lines, scan for numbering tokens, flush the
final block, apply the single-block fallback (tested against the
original input) and clean up. -/
def splitNumberedBlocks (input : String) : List Block :=
  let lines := splitLinesNL (normalizeEOL input.data)
  let (current, blocks0) := splitLoop lines [] []
  let blocks := flushBlock current blocks0
  if blocks.length = 1 && !fallbackScan true input.data then
    [⟨1, jsTrimStr input⟩]
  else
    cleanBlocks blocks

/-- Separator set claimed by the specification for the numbering token:
ASCII period, full-width period, ASCII and full-width closing
parenthesis, ideographic enumeration comma, hyphen — without the
vertical bar. -/
def claimedSeps : List Char := ['.', '。', ')', '）', '、', '-']

/-- Shape predicate of a numbering-token line, parameterised by the
allowed separator set: optional leading whitespace, one to three digits,
exactly one separator, then anything. -/
def NumberedShape (seps : List Char) (l : List Char) : Prop :=
  ∃ ws ds sep rest, l = ws ++ ds ++ sep :: rest ∧
    (∀ c ∈ ws, isJsWs c = true) ∧
    1 ≤ ds.length ∧ ds.length ≤ 3 ∧
    (∀ c ∈ ds, isJsDigit c = true) ∧
    sep ∈ seps

/-! Helper lemmas about `takeWhile` / `dropWhile` used to relate the
compiled regex matchers to shape predicates. -/

theorem takeWhile_append_all (p : Char → Bool) (xs ys : List Char)
    (h : ∀ c ∈ xs, p c = true) :
    (xs ++ ys).takeWhile p = xs ++ ys.takeWhile p := by
  induction xs with
  | nil => simp
  | cons x xs ih =>
    have hx : p x = true := h x (by simp)
    simp [List.takeWhile_cons, hx, ih (fun c hc => h c (by simp [hc]))]

theorem dropWhile_append_all (p : Char → Bool) (xs ys : List Char)
    (h : ∀ c ∈ xs, p c = true) :
    (xs ++ ys).dropWhile p = ys.dropWhile p := by
  induction xs with
  | nil => simp
  | cons x xs ih =>
    have hx : p x = true := h x (by simp)
    simp [List.dropWhile_cons, hx, ih (fun c hc => h c (by simp [hc]))]

theorem head?_dropWhile_false (p : Char → Bool) (l : List Char) (c : Char)
    (h : (l.dropWhile p).head? = some c) : p c = false := by
  have hm := List.head?_dropWhile_not p l
  rw [h] at hm
  exact hm

theorem isJsWs_eq_false_of_isJsDigit (c : Char) (h : isJsDigit c = true) :
    isJsWs c = false := by
  simp only [isJsDigit, Bool.and_eq_true, decide_eq_true_eq] at h
  rw [Bool.eq_false_iff]
  intro hw
  simp only [isJsWs, Bool.or_eq_true, Bool.and_eq_true, decide_eq_true_eq] at hw
  omega

/-- The claim C6 theorem (amended form): a line is recognised as a
numbering token by `numberRegex` — and hence begins a new segment in
`splitNumberedBlocks` — exactly when it consists of optional leading
whitespace, one to three digits and a single separator drawn from
`numberSeps` (the spec's six separators plus the ASCII vertical bar that
the character class of the regex also contains). -/
theorem C6_numbering_token_shape (l : List Char) :
    (numMatchStrip l).isSome = true ↔ NumberedShape numberSeps l := by
  constructor
  · intro h
    rcases hr2 : (l.dropWhile isJsWs).dropWhile isJsDigit with _ | ⟨sep, rest⟩
    · simp only [numMatchStrip, hr2] at h
      split at h <;> simp at h
    · simp only [numMatchStrip, hr2] at h
      by_cases h13 :
          (1 ≤ ((l.dropWhile isJsWs).takeWhile isJsDigit).length &&
            ((l.dropWhile isJsWs).takeWhile isJsDigit).length ≤ 3) = true
      · rw [if_pos h13] at h
        by_cases hmem : sep ∈ numberSeps
        · simp only [Bool.and_eq_true, decide_eq_true_eq] at h13
          refine ⟨l.takeWhile isJsWs, (l.dropWhile isJsWs).takeWhile isJsDigit,
            sep, rest, ?_, ?_, h13.1, h13.2, ?_, hmem⟩
          · conv_lhs => rw [← List.takeWhile_append_dropWhile isJsWs l]
            rw [List.append_assoc, List.append_cancel_left_eq]
            conv_lhs =>
              rw [← List.takeWhile_append_dropWhile isJsDigit (l.dropWhile isJsWs)]
            rw [List.append_cancel_left_eq]
            exact hr2
          · intro c hc
            exact List.mem_takeWhile_imp hc
          · intro c hc
            exact List.mem_takeWhile_imp hc
        · rw [if_neg hmem] at h
          simp at h
      · rw [if_neg h13] at h
        simp at h
  · rintro ⟨ws, ds, sep, rest, rfl, hws, h1, h3, hds, hsep⟩
    have hsepd : isJsDigit sep = false := by
      fin_cases hsep <;> decide
    rcases ds with _ | ⟨d, ds1⟩
    · simp at h1
    have hd : isJsDigit d = true := hds d (by simp)
    have hdw : isJsWs d = false := isJsWs_eq_false_of_isJsDigit d hd
    have e1 : (ws ++ (d :: ds1) ++ sep :: rest).dropWhile isJsWs =
        (d :: ds1) ++ sep :: rest := by
      rw [List.append_assoc, dropWhile_append_all isJsWs ws _ hws]
      simp [List.dropWhile_cons, hdw]
    have e2 : ((d :: ds1) ++ sep :: rest).takeWhile isJsDigit = d :: ds1 := by
      rw [takeWhile_append_all isJsDigit _ _ hds]
      simp [List.takeWhile_cons, hsepd]
    have e3 : ((d :: ds1) ++ sep :: rest).dropWhile isJsDigit = sep :: rest := by
      rw [dropWhile_append_all isJsDigit _ _ hds]
      simp [List.dropWhile_cons, hsepd]
    simp only [numMatchStrip, e1, e2, e3]
    have hlen : (1 ≤ (d :: ds1).length && (d :: ds1).length ≤ 3) = true := by
      simp only [Bool.and_eq_true, decide_eq_true_eq]
      exact ⟨h1, h3⟩
    rw [if_pos hlen, if_pos hsep]
    rfl

/-- Witness for C6: the line `"  12、hello"` is of the amended shape and
is indeed recognised. -/
theorem C6_shape_witness : (numMatchStrip ("  12、hello".data)).isSome = true :=
  (C6_numbering_token_shape _).mpr
    ⟨[' ', ' '], ['1', '2'], '、', "hello".data, by decide, by decide, by decide,
      by decide, by decide, by decide⟩

/-- Counterexample to C6 as stated: the line `"1|B"` carries the ASCII
vertical bar, which is outside the claimed separator set, yet the code
treats it as a numbering token (the token is stripped and the line
begins a new segment). -/
theorem C6_counterexample_pipe :
    (numMatchStrip ("1|B".data)).isSome = true ∧
      ¬ NumberedShape claimedSeps ("1|B".data) ∧
      splitNumberedBlocks "A\n1|B" = [⟨1, "A"⟩, ⟨2, "B"⟩] := by
  refine ⟨by decide, ?_, by decide⟩
  rintro ⟨ws, ds, sep, rest, heq, hws, h1, h3, hds, hsep⟩
  have hl : ("1|B".data : List Char) = ['1', '|', 'B'] := by decide
  rw [hl] at heq
  rcases ws with _ | ⟨w, ws1⟩
  · rcases ds with _ | ⟨d, ds1⟩
    · simp at h1
    · rcases ds1 with _ | ⟨d2, ds2⟩
      · simp only [List.nil_append, List.cons_append, List.nil_append,
          List.cons.injEq] at heq
        obtain ⟨-, hsep2, -⟩ := heq
        rw [← hsep2] at hsep
        simp [claimedSeps] at hsep
      · simp only [List.nil_append, List.cons_append, List.cons.injEq] at heq
        obtain ⟨-, hd2, -⟩ := heq
        have := hds d2 (by simp)
        rw [← hd2] at this
        simp [isJsDigit] at this
  · simp only [List.cons_append, List.cons.injEq] at heq
    obtain ⟨hw, -⟩ := heq
    have := hws w (by simp)
    rw [← hw] at this
    simp [isJsWs] at this

/-- The claim C9 theorem: segmenting `"1. A\n2) B\n3） C"` yields exactly
the three segments `"A"`, `"B"`, `"C"` with indices 1, 2, 3. -/
theorem C9_three_segments :
    splitNumberedBlocks "1. A\n2) B\n3） C" = [⟨1, "A"⟩, ⟨2, "B"⟩, ⟨3, "C"⟩] := by
  decide

/-! Hand-compiled scanners for the regular expressions of
`stripThinking` (`src/lib/text.ts`).  Each JavaScript `replace` becomes
a leftmost scan with an explicit matcher; `Nat` fuel bounds the scans
(one unit per input position, so `length + 1` always suffices because a
successful match consumes at least one character). -/

/-- Case-insensitive literal prefix match; the pattern is given already
lower-cased.  Returns the remainder after the pattern. -/
def matchCI : List Char → List Char → Option (List Char)
  | [], l => some l
  | _ :: _, [] => none
  | p :: ps, c :: cs => if lowerAscii c = p then matchCI ps cs else none

/-- Case-sensitive literal prefix match. -/
def matchLit : List Char → List Char → Option (List Char)
  | [], l => some l
  | _ :: _, [] => none
  | p :: ps, c :: cs => if c = p then matchLit ps cs else none

/-- Ordered regex alternation with backtracking into the continuation:
alternatives are tried left to right, and an alternative is kept only
when the continuation succeeds after it. -/
def tryAltsThen {α : Type} (cont : List Char → Option α) :
    List (List Char) → List Char → Option α
  | [], _ => none
  | kw :: kws, l =>
    match matchCI kw l with
    | some r =>
      match cont r with
      | some res => some res
      | none => tryAltsThen cont kws l
    | none => tryAltsThen cont kws l

/-- Lazy `[\s\S]*?` followed by a matcher: consume as little as possible
until the matcher succeeds, returning the remainder after it. -/
def scanFor (m : List Char → Option (List Char)) : List Char → Option (List Char)
  | [] => m []
  | c :: cs =>
    match m (c :: cs) with
    | some r => some r
    | none => scanFor m cs

/-- Keyword alternation of the fenced-block regex, in source order. -/
def fenceKws : List (List Char) :=
  ["thinking".data, "think".data, "thought".data, "thoughts".data,
    "analysis".data, "reasoning".data]

/-- Matcher for `/```(?:thinking|think|thought|thoughts|analysis|reasoning)[\s\S]*?```/i`
at one position: opening fence, keyword, lazily up to the next fence. -/
def fenceMatch (l : List Char) : Option (List Char) :=
  match matchLit "```".data l with
  | none => none
  | some r => tryAltsThen (scanFor (matchLit "```".data)) fenceKws r

/-- Keyword alternation of the two paired-tag regexes, in source order. -/
def tagKws : List (List Char) :=
  ["think".data, "thinking".data, "analysis".data, "reasoning".data]

/-- Matcher for `/<\/?(?:think|thinking|analysis|reasoning)>[\s\S]*?<\/(?:think|thinking|analysis|reasoning)>/i`:
a plain opening (or closing) tag, then lazily up to a plain closing tag. -/
def plainTagMatch (l : List Char) : Option (List Char) :=
  match matchLit "<".data l with
  | none => none
  | some r =>
    let r1 := match matchLit "/".data r with
      | some rr => rr
      | none => r
    match tryAltsThen (matchLit ">".data) tagKws r1 with
    | none => none
    | some r2 =>
      scanFor (fun t =>
        match matchLit "</".data t with
        | none => none
        | some t1 => tryAltsThen (matchLit ">".data) tagKws t1) r2

/-- Continuation of the tolerant opening tag after its keyword:
`[^>]*>` — attributes up to the closing angle bracket. -/
def tolerantOpenTail (r : List Char) : Option (List Char) :=
  match r.dropWhile (fun c => !(c = '>')) with
  | '>' :: r2 => some r2
  | _ => none

/-- Matcher for the tolerant closing tag `<\s*\/\s*kw\s*>`. -/
def tolerantClose (t : List Char) : Option (List Char) :=
  match matchLit "<".data t with
  | none => none
  | some t1 =>
    match matchLit "/".data (t1.dropWhile isJsWs) with
    | none => none
    | some t2 =>
      tryAltsThen
        (fun t3 =>
          match matchLit ">".data (t3.dropWhile isJsWs) with
          | some t4 => some t4
          | none => none)
        tagKws (t2.dropWhile isJsWs)

/-- Matcher for `/<\s*(?:think|thinking|analysis|reasoning)[^>]*>[\s\S]*?<\s*\/\s*(?:...)\s*>/i`. -/
def tolerantTagMatch (l : List Char) : Option (List Char) :=
  match matchLit "<".data l with
  | none => none
  | some r =>
    match tryAltsThen tolerantOpenTail tagKws (r.dropWhile isJsWs) with
    | none => none
    | some r2 => scanFor tolerantClose r2

/-- Unanchored global `replace(re, "")`: at every position try the
matcher; on success drop the match and continue after it. -/
def removeAllAux (m : List Char → Option (List Char)) : Nat → List Char → List Char
  | 0, l => l
  | _ + 1, [] => []
  | fuel + 1, c :: cs =>
    match m (c :: cs) with
    | some r => removeAllAux m fuel r
    | none => c :: removeAllAux m fuel cs

/-- Fuel wrapper for `removeAllAux`. -/
def removeAll (m : List Char → Option (List Char)) (l : List Char) : List Char :=
  removeAllAux m (l.length + 1) l

/-- Anchored global `replace` for `^`-anchored multiline regexes: the
matcher is tried only at line starts and additionally reports whether
the last character it consumed was a newline (so that scanning can
resume at a line start). -/
def removeAnchoredAux (m : List Char → Option (List Char × Bool)) :
    Nat → Bool → List Char → List Char
  | 0, _, l => l
  | _ + 1, _, [] => []
  | fuel + 1, atStart, c :: cs =>
    if atStart then
      match m (c :: cs) with
      | some (r, nl) => removeAnchoredAux m fuel nl r
      | none => c :: removeAnchoredAux m fuel (c = '\n') cs
    else c :: removeAnchoredAux m fuel (c = '\n') cs

/-- Fuel wrapper for `removeAnchoredAux`; in a fresh scan the string
start is a line start. -/
def removeAnchored (m : List Char → Option (List Char × Bool)) (l : List Char) : List Char :=
  removeAnchoredAux m (l.length + 1) true l

/-- Keyword alternation of the leading-paragraph regex
(`thinking|thoughts?|analysis|reasoning|思考|推理|想法`); the greedy
optional `s` of `thoughts?` becomes the ordered pair
`thoughts`, `thought`. -/
def headKws : List (List Char) :=
  ["thinking".data, "thoughts".data, "thought".data, "analysis".data,
    "reasoning".data, "思考".data, "推理".data, "想法".data]

/-- Punctuation class `[:：\.\-]` after the leading-paragraph keyword. -/
def headPunct (c : Char) : Bool :=
  c = ':' || c = '：' || c = '.' || c = '-'

/-- Continuation of the leading-paragraph regex after its keyword:
`[:：\.\-]*\s*\n` (the greedy `\s*` ends at the last newline of the
whitespace run) and then the lazy `[\s\S]*?` bounded by the multiline
lookahead `(?=\n{2,}|$)`, which stops at the first newline or at the end
of input. -/
def headAfterKw (r : List Char) : Option (List Char × Bool) :=
  let r1 := r.dropWhile headPunct
  let wsRun := r1.takeWhile isJsWs
  let r2 := r1.dropWhile isJsWs
  let afterLastNl := (wsRun.reverse.takeWhile (fun c => !(c = '\n'))).reverse
  if afterLastNl.length = wsRun.length then none
  else
    let rem := afterLastNl ++ r2
    let body := rem.takeWhile (fun c => !(c = '\n'))
    let rem2 := rem.dropWhile (fun c => !(c = '\n'))
    some (rem2, body.isEmpty)

/-- Matcher (at a line start) for the leading-paragraph regex
`/^(?:\s*(?:\*+\s*)?(?:kw)[:：\.\-]*\s*\n[\s\S]*?)(?=\n{2,}|$)/gim`. -/
def headMatch (l : List Char) : Option (List Char × Bool) :=
  let r0 := l.dropWhile isJsWs
  let r1 :=
    match r0 with
    | '*' :: _ => (r0.dropWhile (fun c => c = '*')).dropWhile isJsWs
    | _ => r0
  tryAltsThen headAfterKw headKws r1

/-- Keyword set of `hasThinkingKeyword`
(`thinking|thoughts?|analysis|reasoning|思考|推理|步骤|计划|分解`); for a
bare substring test `thought` subsumes `thoughts`. -/
def scrubKws : List (List Char) :=
  ["thinking".data, "thought".data, "analysis".data, "reasoning".data,
    "思考".data, "推理".data, "步骤".data, "计划".data, "分解".data]

/-- Case-insensitive substring test for a keyword alternation. -/
def containsTokenCI (kws : List (List Char)) : List Char → Bool
  | [] => false
  | c :: cs =>
    kws.any (fun kw => (matchCI kw (c :: cs)).isSome) || containsTokenCI kws cs

/-- The `isQuote` test `/^\s*>/` of the preamble scrub. -/
def isQuoteLine (l : List Char) : Bool :=
  match l.dropWhile isJsWs with
  | '>' :: _ => true
  | _ => false

/-- Letter class `[A-Za-z一-龥]` of the meta-line test. -/
def isCjkOrLatin (c : Char) : Bool :=
  (65 ≤ c.toNat && c.toNat ≤ 90) || (97 ≤ c.toNat && c.toNat ≤ 122) ||
  (0x4e00 ≤ c.toNat && c.toNat ≤ 0x9fa5)

/-- Marker alternative `(?:[\*\-–—>]|\d+[\.\)）])` of the meta-line test;
returns the remainder after the marker. -/
def metaMarker (l : List Char) : Option (List Char) :=
  match l with
  | [] => none
  | c :: rest =>
    if c = '*' || c = '-' || c = '–' || c = '—' || c = '>' then some rest
    else
      let ds := l.takeWhile isJsDigit
      let r2 := l.dropWhile isJsDigit
      if ds.isEmpty then none
      else
        match r2 with
        | s :: rest2 => if s = '.' || s = ')' || s = '）' then some rest2 else none
        | [] => none

/-- The `\*?\*?[A-Za-z一-龥]` part of the meta-line test: a
letter after zero, one or two asterisks. -/
def starLetter : List Char → Bool
  | [] => false
  | c :: rest =>
    isCjkOrLatin c ||
      (c = '*' &&
        match rest with
        | [] => false
        | c2 :: rest2 =>
          isCjkOrLatin c2 ||
            (c2 = '*' &&
              match rest2 with
              | [] => false
              | c3 :: _ => isCjkOrLatin c3))

/-- The `looksLikeMeta` test
`/^\s*(?:[\*\-–—>]|\d+[\.\)）])\s*\*?\*?[A-Za-z一-龥].*\*?\*?\s*$/`
(the trailing `.*\*?\*?\s*$` always succeeds within one line). -/
def looksLikeMeta (l : List Char) : Bool :=
  match metaMarker (l.dropWhile isJsWs) with
  | some r => starLetter (r.dropWhile isJsWs)
  | none => false

/-- The `hasThinkingKeyword` test of the preamble scrub. -/
def hasThinkingKeyword (l : List Char) : Bool :=
  containsTokenCI scrubKws l

/-- The preamble scrub (pass 3 of `stripThinking`): while in preamble
mode drop quote lines, keyword lines, meta lines and blank lines; the
first line matching none of these ends preamble mode, and every later
line is kept unconditionally. -/
def scrubLines : Bool → List (List Char) → List (List Char)
  | _, [] => []
  | inPre, l :: rest =>
    if inPre then
      if isQuoteLine l || hasThinkingKeyword l || looksLikeMeta l || (jsTrim l).isEmpty then
        scrubLines true rest
      else l :: scrubLines false rest
    else l :: scrubLines false rest

/-- Keyword alternation of the two stray-label regexes
(`thinking|thoughts?|analysis|reasoning|思考|推理`); the unconstrained
`[^\n]*` tail makes the bare `thought` prefix sufficient. -/
def labelKws : List (List Char) :=
  ["thinking".data, "thought".data, "analysis".data, "reasoning".data,
    "思考".data, "推理".data]

/-- Matcher (at a line start) for
`/^\s*\*+\s*(kw)[^\n]*$/gim`: whitespace (which may span lines), at
least one asterisk, whitespace, a keyword, then the rest of that line. -/
def label1Match (l : List Char) : Option (List Char × Bool) :=
  let r0 := l.dropWhile isJsWs
  match r0 with
  | '*' :: _ =>
    let r1 := (r0.dropWhile (fun c => c = '*')).dropWhile isJsWs
    match tryAltsThen some labelKws r1 with
    | some r2 => some (r2.dropWhile (fun c => !(c = '\n')), false)
    | none => none
  | _ => none

/-- Matcher (at a line start) for
`/^\s*[\[【\(]?(kw)[\]】\)]?[:：]?[^\n]*$/gim`: whitespace, an optional
opening bracket (kept only when a keyword follows it), a keyword, then
the rest of that line. -/
def label2Match (l : List Char) : Option (List Char × Bool) :=
  let r0 := l.dropWhile isJsWs
  let attempt := fun (r : List Char) =>
    match tryAltsThen some labelKws r with
    | some r2 => some (r2.dropWhile (fun c => !(c = '\n')), false)
    | none => none
  match r0 with
  | [] => none
  | c :: rest =>
    if c = '[' || c = '【' || c = '(' then
      match attempt rest with
      | some res => some res
      | none => attempt r0
    else attempt r0

/-- Emission step of the blank-line collapse: a pending run of `k`
newlines is written back as-is when `k ≤ 2` and as exactly two newlines
when `k ≥ 3` (the global replace `/\n{3,}/g → "\n\n"`). -/
def emitNl (k : Nat) : List Char :=
  if 3 ≤ k then ['\n', '\n'] else List.replicate k '\n'

/-- Run-length scanner behind `text.replace(/\n{3,}/g, "\n\n")`. -/
def collapseAux : Nat → List Char → List Char
  | k, [] => emitNl k
  | k, c :: cs =>
    if c = '\n' then collapseAux (k + 1) cs
    else emitNl k ++ c :: collapseAux 0 cs

/-- The newline-collapse half of the sanitizer's final pass. -/
def collapseNewlines (cs : List Char) : List Char :=
  collapseAux 0 cs

/-- The sanitizer's final pass (pass 5 of `stripThinking`): collapse
newline runs, then `trim`. -/
def sanitizeFinalPass (cs : List Char) : List Char :=
  jsTrim (collapseNewlines cs)

/-- Embedding of `stripThinking` from `src/lib/text.ts`: falsy input
yields the empty string, then the five passes run in source order on
each other's output. -/
def stripThinkingL (cs : List Char) : List Char :=
  if cs.isEmpty then [] else
  let t1 := removeAll fenceMatch cs
  let t2 := removeAll plainTagMatch t1
  let t3 := removeAll tolerantTagMatch t2
  let t4 := removeAnchored headMatch t3
  let t5 := joinLinesNL (scrubLines true (splitLinesNL t4))
  let t6 := removeAnchored label1Match t5
  let t7 := removeAnchored label2Match t6
  sanitizeFinalPass t7

/-- String wrapper of the sanitizer. -/
def stripThinking (s : String) : String :=
  String.mk (stripThinkingL s.data)

/-! Properties of the sanitizer's final pass. -/

/-- Detector of three consecutive newline characters, i.e. of a run of
two or more consecutive blank lines. -/
def hasTriple : List Char → Bool
  | [] => false
  | [_] => false
  | [_, _] => false
  | a :: b :: c :: rest =>
    (a = '\n' && b = '\n' && c = '\n') || hasTriple (b :: c :: rest)

theorem hasTriple_cons_false {a : Char} {l : List Char}
    (h : hasTriple (a :: l) = false) : hasTriple l = false := by
  match l with
  | [] => rfl
  | [_] => rfl
  | x :: y :: t =>
    simp only [hasTriple, Bool.or_eq_false_iff] at h
    exact h.2

theorem hasTriple_append_false {u v : List Char}
    (h : hasTriple (u ++ v) = false) : hasTriple v = false := by
  induction u with
  | nil => exact h
  | cons a u ih => exact ih (hasTriple_cons_false h)

theorem hasTriple_cons_of_ne {c : Char} {t : List Char} (hc : ¬ c = '\n')
    (h : hasTriple t = false) : hasTriple (c :: t) = false := by
  match t with
  | [] => rfl
  | [_] => rfl
  | x :: y :: r =>
    simp only [hasTriple, Bool.or_eq_false_iff]
    refine ⟨?_, h⟩
    simp [hc]

theorem hasTriple_replicate_ge {k : Nat} (hk : 3 ≤ k) (t : List Char) :
    hasTriple (List.replicate k '\n' ++ t) = true := by
  obtain ⟨m, rfl⟩ : ∃ m, k = m + 3 := ⟨k - 3, by omega⟩
  have hrw : List.replicate (m + 3) '\n' ++ t =
      '\n' :: '\n' :: '\n' :: (List.replicate m '\n' ++ t) := by
    simp [List.replicate_succ]
  rw [hrw]
  simp [hasTriple]

theorem hasTriple_nl_cons {c : Char} {t : List Char} (hc : ¬ c = '\n')
    (h : hasTriple (c :: t) = false) : hasTriple ('\n' :: c :: t) = false := by
  match t with
  | [] => rfl
  | x :: r =>
    simp only [hasTriple, Bool.or_eq_false_iff] at h ⊢
    exact ⟨by simp [hc], h⟩

theorem hasTriple_nl_nl_cons {c : Char} {t : List Char} (hc : ¬ c = '\n')
    (h : hasTriple (c :: t) = false) :
    hasTriple ('\n' :: '\n' :: c :: t) = false := by
  simp only [hasTriple, Bool.or_eq_false_iff]
  exact ⟨by simp [hc], hasTriple_nl_cons hc h⟩

theorem emitNl_of_le {k : Nat} (hk : k ≤ 2) : emitNl k = List.replicate k '\n' := by
  simp [emitNl]
  omega

theorem collapseAux_eq_self (cs : List Char) :
    ∀ k, hasTriple (List.replicate k '\n' ++ cs) = false →
      collapseAux k cs = List.replicate k '\n' ++ cs := by
  induction cs with
  | nil =>
    intro k h
    have hk : k ≤ 2 := by
      by_contra hgt
      rw [hasTriple_replicate_ge (by omega) []] at h
      exact Bool.noConfusion h
    simp [collapseAux, emitNl_of_le hk]
  | cons c cs ih =>
    intro k h
    by_cases hc : c = '\n'
    · subst hc
      have hrw : List.replicate k '\n' ++ '\n' :: cs =
          List.replicate (k + 1) '\n' ++ cs := by
        simp [List.replicate_succ']
      rw [hrw] at h ⊢
      simpa [collapseAux] using ih (k + 1) h
    · have hk : k ≤ 2 := by
        by_contra hgt
        rw [hasTriple_replicate_ge (by omega) (c :: cs)] at h
        exact Bool.noConfusion h
      have hcs : hasTriple cs = false :=
        hasTriple_cons_false (hasTriple_append_false h)
      simp only [collapseAux, if_neg hc, emitNl_of_le hk]
      rw [show cs = List.replicate 0 '\n' ++ cs from by simp] at hcs
      rw [ih 0 hcs]
      simp

theorem collapseAux_no_triple (cs : List Char) :
    ∀ k, hasTriple (collapseAux k cs) = false := by
  induction cs with
  | nil =>
    intro k
    by_cases hk : 3 ≤ k
    · simp [collapseAux, emitNl, hk, hasTriple]
    · rcases k with _ | _ | _ | k
      · decide
      · decide
      · decide
      · omega
  | cons c cs ih =>
    intro k
    by_cases hc : c = '\n'
    · subst hc
      simpa [collapseAux] using ih (k + 1)
    · have base : hasTriple (c :: collapseAux 0 cs) = false :=
        hasTriple_cons_of_ne hc (ih 0)
      simp only [collapseAux, if_neg hc]
      by_cases hk : 3 ≤ k
      · have he : emitNl k = ['\n', '\n'] := by simp [emitNl, hk]
        rw [he]
        simpa using hasTriple_nl_nl_cons hc base
      · rcases k with _ | _ | _ | k
        · simpa [emitNl] using base
        · simpa [emitNl, List.replicate] using hasTriple_nl_cons hc base
        · simpa [emitNl, List.replicate] using hasTriple_nl_nl_cons hc base
        · omega

theorem getLast?_jsTrim_not_ws {l : List Char} {c : Char}
    (h : (jsTrim l).getLast? = some c) : isJsWs c = false := by
  unfold jsTrim at h
  rw [List.getLast?_reverse] at h
  exact head?_dropWhile_false _ _ _ h

theorem head?_jsTrim_not_ws {l : List Char} {c : Char}
    (h : (jsTrim l).head? = some c) : isJsWs c = false := by
  unfold jsTrim at h
  rw [List.head?_reverse] at h
  have hsuff : List.dropWhile isJsWs ((l.dropWhile isJsWs).reverse) <:+
      (l.dropWhile isJsWs).reverse := List.dropWhile_suffix _
  obtain ⟨t, ht⟩ := hsuff
  have hlast : ((l.dropWhile isJsWs).reverse).getLast? = some c := by
    rw [← ht, List.getLast?_append, h]
    rfl
  rw [List.getLast?_reverse] at hlast
  exact head?_dropWhile_false _ _ _ hlast

theorem collapseAux_cons (j : Nat) (c : Char) (l : List Char) :
    collapseAux j (c :: l) =
      if c = '\n' then collapseAux (j + 1) l
      else emitNl j ++ c :: collapseAux 0 l := rfl

theorem collapseAux_append_break (u : List Char) :
    ∀ (w : List Char) (j : Nat), u ≠ [] → u.getLast? ≠ some '\n' →
      collapseAux j (u ++ w) = collapseAux j u ++ collapseAux 0 w := by
  induction u with
  | nil => intro w j hne; exact absurd rfl hne
  | cons c u ih =>
    intro w j _ hlast
    rcases u with _ | ⟨d, u'⟩
    · have hc : ¬ c = '\n' := fun hc => hlast (by simp [hc])
      rw [List.cons_append, List.nil_append, collapseAux_cons, if_neg hc,
        collapseAux_cons, if_neg hc]
      simp [collapseAux, emitNl]
    · have hlast2 : (d :: u').getLast? ≠ some '\n' := by
        simpa [List.getLast?_cons_cons] using hlast
      by_cases hc : c = '\n'
      · subst hc
        rw [List.cons_append, collapseAux_cons, if_pos rfl,
          collapseAux_cons, if_pos rfl]
        exact ih w (j + 1) (by simp) hlast2
      · rw [List.cons_append, collapseAux_cons, if_neg hc]
        conv_rhs => rw [collapseAux_cons, if_neg hc]
        rw [ih w 0 (by simp) hlast2]
        simp

theorem collapseAux_replicate (k : Nat) :
    ∀ (j : Nat) (v : List Char),
      collapseAux j (List.replicate k '\n' ++ v) = collapseAux (j + k) v := by
  induction k with
  | zero => intro j v; simp
  | succ n ih =>
    intro j v
    have hrw : List.replicate (n + 1) '\n' ++ v = '\n' :: (List.replicate n '\n' ++ v) := by
      simp [List.replicate_succ]
    rw [hrw, collapseAux_cons, if_pos rfl, ih (j + 1) v]
    have harith : j + 1 + n = j + (n + 1) := by omega
    rw [harith]

theorem collapseAux_run_boundary {v : List Char} {k : Nat} (hk : 3 ≤ k)
    (hv : v.head? ≠ some '\n') :
    collapseAux 0 (List.replicate k '\n' ++ v) = ['\n', '\n'] ++ collapseAux 0 v := by
  rw [collapseAux_replicate k 0 v]
  rcases v with _ | ⟨c, v'⟩
  · simp [collapseAux, emitNl, hk]
  · have hc : ¬ c = '\n' := by
      intro h
      exact hv (by simp [h])
    rw [collapseAux_cons, if_neg hc]
    simp [collapseAux_cons, hc, emitNl, hk]

/-- Input exhibiting the C5 failure: removing the first fenced reasoning
block splices the surrounding backticks into a new
`"```thinking ...```"` fence that only a second application of the
sanitizer removes. -/
def fenceSplice : String := "Hello\n`````thinking Q````thinking W~~~```"

/-- The claim C5 theorem (evaluation at the failing input): the
sanitizer is not idempotent — one application of `stripThinking` to
`fenceSplice` leaves a reassembled reasoning fence behind, and a second
application removes it, so applying twice differs from applying once. -/
theorem C5_strip_not_idempotent :
    stripThinking fenceSplice = "Hello\n```thinking W~~~```" ∧
      stripThinking (stripThinking fenceSplice) = "Hello" ∧
      stripThinking (stripThinking fenceSplice) ≠ stripThinking fenceSplice :=
  ⟨by decide, by decide, by decide⟩

/-- Counterexample to C7 as stated: `"A\n\n\nB"` contains a run of
exactly two consecutive blank lines (three newlines) and no leading or
trailing whitespace, so under the claim the final pass should leave it
intact; instead the pass rewrites it to a single blank line. -/
theorem C7_counterexample_two_blank_lines :
    sanitizeFinalPass ("A\n\n\nB".data) = "A\n\nB".data ∧
      "A\n\nB".data ≠ ("A\n\n\nB".data : List Char) ∧
      stripThinking "A\n\n\nB" = "A\n\nB" :=
  ⟨by decide, by decide, by decide⟩

/-- The claim C7 theorem (amended form): in the sanitizer's final pass
the newline collapse (a) leaves no run of three or more newlines — that
is, no run of two or more blank lines — in its output, (b) is the
identity on inputs having no such run (a single blank line is left
intact), (c) rewrites every maximal run of `k ≥ 3` newlines, delimited
by a non-newline or an end of the text, to exactly two newlines (one
blank line); and after the final `trim` (d) the output carries no
leading and no trailing whitespace character. -/
theorem C7_final_pass_collapse_and_trim :
    (∀ cs : List Char, hasTriple (collapseNewlines cs) = false) ∧
      (∀ cs : List Char, hasTriple cs = false → collapseNewlines cs = cs) ∧
      (∀ (u v : List Char) (k : Nat), 3 ≤ k → u.getLast? ≠ some '\n' →
        v.head? ≠ some '\n' →
        collapseNewlines (u ++ List.replicate k '\n' ++ v) =
          collapseNewlines u ++ ['\n', '\n'] ++ collapseNewlines v) ∧
      (∀ (cs : List Char) (c : Char),
        ((sanitizeFinalPass cs).head? = some c → isJsWs c = false) ∧
          ((sanitizeFinalPass cs).getLast? = some c → isJsWs c = false)) := by
  refine ⟨?_, ?_, ?_, ?_⟩
  · intro cs
    exact collapseAux_no_triple cs 0
  · intro cs h
    have := collapseAux_eq_self cs 0 (by simpa using h)
    simpa [collapseNewlines] using this
  · intro u v k hk hu hv
    rcases u with _ | ⟨c, u'⟩
    · simp only [List.nil_append]
      rw [show collapseNewlines (List.replicate k '\n' ++ v) =
          collapseAux 0 (List.replicate k '\n' ++ v) from rfl,
        collapseAux_run_boundary hk hv]
      rfl
    · rw [show collapseNewlines ((c :: u') ++ List.replicate k '\n' ++ v) =
          collapseAux 0 ((c :: u') ++ (List.replicate k '\n' ++ v)) from by
            simp [collapseNewlines],
        collapseAux_append_break (c :: u') _ 0 (by simp) hu,
        collapseAux_run_boundary hk hv]
      simp [collapseNewlines, List.append_assoc]
  · intro cs c
    constructor
    · intro h
      exact head?_jsTrim_not_ws h
    · intro h
      exact getLast?_jsTrim_not_ws h

/-- Witness for C7: the amended collapse law applied at
`"A" ++ "\n\n\n" ++ "B"`. -/
theorem C7_final_pass_witness :
    collapseNewlines ("A".data ++ List.replicate 3 '\n' ++ "B".data) =
      collapseNewlines "A".data ++ ['\n', '\n'] ++ collapseNewlines "B".data :=
  C7_final_pass_collapse_and_trim.2.2.1 "A".data "B".data 3 (by decide)
    (by decide) (by decide)

/-! Embedding of the persistence wrapper (`src/lib/storage.ts`).  The
browser `localStorage` is a key-addressed store modelled as
`PersistKey → Option String`; `JSON.parse`, an external collaborator
that can throw, is a parameter of type `String → Except String α`
(an `Except.error` models a thrown parse exception). -/

/-- The `PersistKey` union of `src/lib/storage.ts`. -/
inductive PersistKey
  | prompts
  | apiProfiles
  | defaults
  | tasks
  | results
  | noteApi
  | images
  | writeCount
  | autoSaveNote
  | imageCount
deriving DecidableEq, Repr

/-- Embedding of `safeParse`: a null or empty (falsy) raw string yields
the fallback without parsing, and a thrown parse error is caught and
also yields the fallback. -/
def safeParse {α : Type} (parse : String → Except String α)
    (raw : Option String) (fallback : α) : α :=
  match raw with
  | none => fallback
  | some s =>
    if s = "" then fallback
    else
      match parse s with
      | Except.ok v => v
      | Except.error _ => fallback

/-- Embedding of `readLS`: outside a browser window return the fallback,
otherwise delegate to `safeParse` on the stored string. -/
def readLS {α : Type} (hasWindow : Bool) (parse : String → Except String α)
    (store : PersistKey → Option String) (key : PersistKey) (fallback : α) : α :=
  if hasWindow = false then fallback
  else safeParse parse (store key) fallback

/-- The claim C10 theorem: `readLS` is a total function into the value
type (a thrown parse error never escapes — it is caught inside
`safeParse`), and on an absent stored string or on a stored string whose
parse throws, the supplied fallback is returned unchanged.  This holds
for every key, every store and every fallback value. -/
theorem C10_readLS_total_fallback {α : Type} (hasWindow : Bool)
    (parse : String → Except String α) (store : PersistKey → Option String)
    (key : PersistKey) (fallback : α) :
    (store key = none → readLS hasWindow parse store key fallback = fallback) ∧
      (∀ s e, store key = some s → parse s = Except.error e →
        readLS hasWindow parse store key fallback = fallback) := by
  constructor
  · intro h
    rcases hasWindow with _ | _
    · simp [readLS]
    · simp [readLS, safeParse, h]
  · intro s e hs he
    rcases hasWindow with _ | _
    · simp [readLS]
    · by_cases hempty : s = ""
      · simp [readLS, safeParse, hs, hempty]
      · simp [readLS, safeParse, hs, hempty, he]

/-- Witness for C10: a store holding the non-JSON text `"not json"`
under `results`, with a parser that throws on it, still returns the
fallback `42`. -/
theorem C10_readLS_witness :
    readLS true (fun _ => (Except.error "bad" : Except String Nat))
      (fun _ => some "not json") PersistKey.results 42 = 42 :=
  (C10_readLS_total_fallback true (fun _ => Except.error "bad")
    (fun _ => some "not json") PersistKey.results 42).2 "not json" "bad" rfl rfl

/-! Embedding of the write-stage prompt composition of `runOne`
(`WriterWorkbench.tsx`, the `composeUser` constant). -/

/-- JavaScript truthiness of `s?.trim()` for an optional string: defined
and with non-blank trim. -/
def guidTruthy : Option String → Bool
  | none => false
  | some s => !(jsTrimStr s == "")

/-- JavaScript truthiness of `s.trim()` for a plain string. -/
def strTruthy (s : String) : Bool :=
  !(jsTrimStr s == "")

/-- The per-item guidance block `\n\n[指导重点]\n` + guidance. -/
def guidanceBlock (g : String) : String :=
  "\n\n[指导重点]\n" ++ g

/-- The caller-level batch guidance block `\n\n[批量指导]\n` + guidance. -/
def batchBlock (g : String) : String :=
  "\n\n[批量指导]\n" ++ g

/-- The effective prior-stage input of the write stage:
`task.needsSearch ? (searchOutput || "") : task.raw`. -/
def effectiveInput (needsSearch : Bool) (searchOutput : Option String)
    (raw : String) : String :=
  if needsSearch then
    match searchOutput with
    | some s => s
    | none => ""
  else raw

/-- Embedding of the `composeUser` array-join of `runOne`: the effective
input, then the per-item guidance block when the item's guidance is
truthy, then the third element whose source form is
`global && item ? "" : (global ? batch : "")`. -/
def composeUser (needsSearch : Bool) (searchOutput : Option String)
    (raw : String) (guidance : Option String) (globalGuidance : String) : String :=
  effectiveInput needsSearch searchOutput raw ++
    (if guidTruthy guidance then guidanceBlock (guidance.getD "") else "") ++
    (if strTruthy globalGuidance && guidTruthy guidance then ""
      else if strTruthy globalGuidance then batchBlock globalGuidance else "")

/-- The claim C4 theorem: the composed write-stage user message is the
effective prior-stage input, then the per-item guidance block exactly
when the per-item guidance is non-blank, then the batch guidance block
exactly when the batch guidance is non-blank and no per-item guidance
was supplied; in particular, when both guidance values are non-blank
only the per-item block appears. -/
theorem C4_compose_user (needsSearch : Bool) (searchOutput : Option String)
    (raw : String) (guidance : Option String) (globalGuidance : String) :
    (composeUser needsSearch searchOutput raw guidance globalGuidance =
      effectiveInput needsSearch searchOutput raw ++
        (if guidTruthy guidance then guidanceBlock (guidance.getD "") else "") ++
        (if strTruthy globalGuidance && !guidTruthy guidance then
          batchBlock globalGuidance else "")) ∧
      (guidTruthy guidance = true → strTruthy globalGuidance = true →
        composeUser needsSearch searchOutput raw guidance globalGuidance =
          effectiveInput needsSearch searchOutput raw ++
            guidanceBlock (guidance.getD "")) := by
  constructor
  · unfold composeUser
    rcases hg : guidTruthy guidance with _ | _ <;>
      rcases hG : strTruthy globalGuidance with _ | _ <;> simp
  · intro hg hG
    unfold composeUser
    rw [hg, hG]
    simp

/-- Witness for C4: with both guidance values non-blank, only the
per-item block is appended. -/
theorem C4_compose_user_witness :
    composeUser false none "素材" (some "口语化") "突出干货" =
      effectiveInput false none "素材" ++ guidanceBlock "口语化" :=
  (C4_compose_user false none "素材" (some "口语化") "突出干货").2
    (by decide) (by decide)

/-! Embedding of the orchestrator `runOne` of `WriterWorkbench.tsx`.
The network is abstracted: the environment carries the outcome every
provider call would have had (`Except CallError String`, where
`CallError.aborted` models the rejection of a call whose abort signal
fired).  `runOne` then becomes a pure function from the prior results
collection and running set to the next ones plus an optional surfaced
error. -/

/-- The `ModelConfig` record of `src/lib/types.ts`. -/
structure ModelConfig where
  name : String
  baseUrl : String
  apiKey : String
  model : String
  thinkingFilter : Option Bool := none
deriving DecidableEq, Repr

/-- The `PromptItem` record of `src/lib/types.ts`. -/
structure PromptItem where
  id : String
  name : String
  category : String
  content : String
  isDefault : Option Bool := none
deriving DecidableEq, Repr

/-- The `TaskInput` record of `src/lib/types.ts`. -/
structure TaskInput where
  id : String
  index : Nat
  title : Option String := none
  tags : List String := []
  promptKey : Option String := none
  guidance : Option String := none
  needsSearch : Bool
  raw : String
deriving DecidableEq, Repr

/-- The `TaskResult` record of `src/lib/types.ts`, extended with the
`parentId` / `variantNo` fields that `runOne` attaches to the members of
a variant set (absent on a single result). -/
structure TaskResult where
  id : String
  index : Nat
  raw : String
  searchOutput : Option String := none
  writeOutput : String
  createdAt : Nat
  parentId : Option String := none
  variantNo : Option Nat := none
deriving DecidableEq, Repr

/-- Failure modes of a provider call: a user-initiated abort
(`AbortError` from the item's `AbortController`) or any other transport,
status or parse failure with its message. -/
inductive CallError
  | aborted
  | failed (msg : String)
deriving DecidableEq, Repr

/-- Message text carried into the surfaced toast for a call error. -/
def errToMsg : CallError → String
  | CallError.aborted => "AbortError"
  | CallError.failed m => m

/-- The caller-level context of one `runOne` invocation: configuration
state read by the component plus the outcome of each provider call the
invocation would make (`writeOutcome k` is the outcome of the variant-`k`
write call; the single-variant path uses `writeOutcome 1`). -/
structure RunEnv where
  apiWrite : Option ModelConfig
  apiSearch : Option ModelConfig
  prompts : List PromptItem
  globalPromptId : Option String
  defaultWritePromptId : Option String
  defaultSearchPromptId : Option String
  globalGuidance : String
  writeCount : Int
  searchOutcome : Except CallError String
  writeOutcome : Nat → Except CallError String
  now : Nat

/-- JavaScript `a || b` on optional id strings (an empty id is falsy). -/
def jsOrId (a b : Option String) : Option String :=
  match a with
  | some s => if s = "" then b else some s
  | none => b

/-- The `selectedWritePrompt` memo: resolve
`globalPromptId || defaults.defaultWritePromptId` in `prompts`. -/
def selectedWritePrompt (env : RunEnv) : Option PromptItem :=
  match jsOrId env.globalPromptId env.defaultWritePromptId with
  | some i => env.prompts.find? (fun p => p.id == i)
  | none => none

/-- The `selectedSearchPrompt` memo: resolve
`defaults.defaultSearchPromptId` in `prompts`. -/
def selectedSearchPrompt (env : RunEnv) : Option PromptItem :=
  match env.defaultSearchPromptId with
  | some i => env.prompts.find? (fun p => p.id == i)
  | none => none

/-- Write-prompt resolution of `runOne`:
`task.promptKey ? prompts.find(p => p.id === task.promptKey) : selectedWritePrompt`
(an empty `promptKey` is falsy). -/
def resolveWritePrompt (env : RunEnv) (task : TaskInput) : Option PromptItem :=
  match task.promptKey with
  | some k => if k = "" then selectedWritePrompt env
    else env.prompts.find? (fun p => p.id == k)
  | none => selectedWritePrompt env

/-- The variant-count clamp
`Math.max(1, Math.min(5, Number(writeCount) || 1))` (a zero count is
falsy and becomes 1). -/
def clampCount (w : Int) : Nat :=
  (max 1 (min 5 (if w = 0 then 1 else w))).toNat

/-- Stable insertion of an element after every element the comparator
places before-or-equal to it; `insSort` with such insertions is the
stable ascending sort that `Array.prototype.sort` performs. -/
def insertLe {α : Type} (le : α → α → Bool) (x : α) : List α → List α
  | [] => [x]
  | y :: ys => if le y x then y :: insertLe le x ys else x :: y :: ys

/-- Stable sort (insertion sort) with a boolean comparator. -/
def insSort {α : Type} (le : α → α → Bool) (l : List α) : List α :=
  l.foldl (fun acc x => insertLe le x acc) []

/-- Comparator of the single-result merge: `(a, b) => a.index - b.index`. -/
def leIdx (a b : TaskResult) : Bool :=
  a.index ≤ b.index

/-- Comparator of the variant merge:
`(a, b) => (a.index - b.index) || ((a.variantNo || 0) - (b.variantNo || 0))`. -/
def leIdxVar (a b : TaskResult) : Bool :=
  if a.index = b.index then (a.variantNo.getD 0) ≤ (b.variantNo.getD 0)
  else a.index ≤ b.index

/-- The single-result `setResults` updater of `runOne`: remove any prior
entry with the same id, append, and sort by index. -/
def mergeSingle (prior : List TaskResult) (tr : TaskResult) : List TaskResult :=
  insSort leIdx ((prior.filter (fun x => !(x.id == tr.id))) ++ [tr])

/-- The variant-set `setResults` updater of `runOne`: remove the task's
old single result and old variants (matched by id and by parent id),
append the new variants, and sort by index then variant number. -/
def mergeVariants (prior : List TaskResult) (taskId : String)
    (variants : List TaskResult) : List TaskResult :=
  insSort leIdxVar
    ((prior.filter (fun x => !(x.id == taskId) && !(x.parentId == some taskId))) ++
      variants)

/-- The refine `setResults` updater of the results tab: replace the
output and timestamp of the entry with the given id in place. -/
def refineUpdate (prior : List TaskResult) (rid : String) (newOut : String)
    (now : Nat) : List TaskResult :=
  prior.map (fun x =>
    if x.id == rid then
      { x with writeOutput := newOut, createdAt := now }
    else x)

/-- The single `TaskResult` built by the one-variant path of `runOne`. -/
def mkSingleResult (task : TaskInput) (searchOutput : Option String)
    (writeOutput : String) (now : Nat) : TaskResult :=
  { id := task.id, index := task.index, raw := task.raw,
    searchOutput := searchOutput, writeOutput := writeOutput,
    createdAt := now, parentId := none, variantNo := none }

/-- The variant `TaskResult`s built by the fan-out path of `runOne`:
variant `k` gets id `task.id ++ "-" ++ k`, the parent reference and the
variant number; each output has already passed `stripThinking`. -/
def mkVariants (task : TaskInput) (searchOutput : Option String)
    (outs : List String) (now : Nat) : List TaskResult :=
  (List.zip (List.range' 1 outs.length) outs).map (fun kv =>
    { id := task.id ++ "-" ++ toString kv.1, index := task.index,
      raw := task.raw, searchOutput := searchOutput,
      writeOutput := stripThinking kv.2, createdAt := now,
      parentId := some task.id, variantNo := some kv.1 })

/-- Collection of the settled outcomes of `Promise.all`: all values when
every call succeeded, otherwise a rejection error (the harness takes the
first erroring call in variant order; which rejection wins in the
browser depends on timing, but every theorem below is independent of
that choice). -/
def collectOutcomes : List (Except CallError String) → Except CallError (List String)
  | [] => Except.ok []
  | Except.ok v :: rest =>
    match collectOutcomes rest with
    | Except.ok vs => Except.ok (v :: vs)
    | Except.error e => Except.error e
  | Except.error e :: _ => Except.error e

/-- The search stage of `runOne`: skipped when `needsSearch` is false;
otherwise it demands a search endpoint and a resolved search prompt
(configuration errors, no call made), and passes a successful response
through `stripThinking`. -/
def searchStage (env : RunEnv) (task : TaskInput) : Except String (Option String) :=
  if task.needsSearch then
    match env.apiSearch with
    | none => Except.error "已勾选联网检索，但未配置搜索增强 API"
    | some _ =>
      match selectedSearchPrompt env with
      | none => Except.error "未设置默认搜索 Prompt，请在提示词管理设置默认项"
      | some _ =>
        match env.searchOutcome with
        | Except.error e => Except.error (errToMsg e)
        | Except.ok s => Except.ok (some (stripThinking s))
  else Except.ok none

/-- The `try` body of `runOne` as a results transformer: search stage,
write-prompt resolution, prompt composition, then the single write call
or the `Promise.all` variant fan-out, each output passed through
`stripThinking` and merged into the results collection; any failure
anywhere is the per-item error of the `catch`. -/
def runBody (env : RunEnv) (task : TaskInput) (results : List TaskResult) :
    Except String (List TaskResult) :=
  match searchStage env task with
  | Except.error m => Except.error m
  | Except.ok searchOutput =>
    match resolveWritePrompt env task with
    | none => Except.error "未找到写作 Prompt，请在提示词管理中设置或选择"
    | some _ =>
      let _user := composeUser task.needsSearch searchOutput task.raw
        task.guidance env.globalGuidance
      let count := clampCount env.writeCount
      if count = 1 then
        match env.writeOutcome 1 with
        | Except.error e => Except.error (errToMsg e)
        | Except.ok out =>
          Except.ok (mergeSingle results
            (mkSingleResult task searchOutput (stripThinking out) env.now))
      else
        match collectOutcomes ((List.range' 1 count).map env.writeOutcome) with
        | Except.error e => Except.error (errToMsg e)
        | Except.ok outs =>
          Except.ok (mergeVariants results task.id
            (mkVariants task searchOutput outs env.now))

/-- Post-state of one `runOne` invocation. -/
structure RunOutcome where
  results : List TaskResult
  running : List String
  error : Option String
deriving DecidableEq, Repr

/-- The `runningIds` insertion at the start of `runOne`. -/
def addRunning (running : List String) (id : String) : List String :=
  if id ∈ running then running else running ++ [id]

/-- The `runningIds` deletion of the `finally` block of `runOne`. -/
def removeRunning (running : List String) (id : String) : List String :=
  running.filter (fun x => !(x == id))

/-- Embedding of `runOne`: a missing write endpoint returns early with a
toast and no state change; otherwise the task id is marked running, the
body runs, its error (if any) is surfaced as the per-item toast, and the
`finally` cleanup always removes the id from the running set. -/
def runOne (env : RunEnv) (task : TaskInput) (results : List TaskResult)
    (running : List String) : RunOutcome :=
  match env.apiWrite with
  | none => ⟨results, running, some "请先在设置中配置文案生成 API"⟩
  | some _ =>
    let r1 := addRunning running task.id
    match runBody env task results with
    | Except.ok results2 => ⟨results2, removeRunning r1 task.id, none⟩
    | Except.error msg =>
      ⟨results, removeRunning r1 task.id,
        some ("条目 " ++ toString task.index ++ " 处理失败：" ++ msg)⟩

/-! Lemmas about the orchestrator embedding. -/

theorem isOk_error_false {ε α : Type} {e : ε} :
    (Except.error e : Except ε α).isOk = false := rfl

theorem isOk_ok_true {ε α : Type} {v : α} :
    (Except.ok v : Except ε α).isOk = true := rfl

theorem collectOutcomes_isOk_false {l : List (Except CallError String)}
    (h : ∃ x ∈ l, x.isOk = false) : (collectOutcomes l).isOk = false := by
  induction l with
  | nil => simp at h
  | cons a rest ih =>
    obtain ⟨x, hx, hbad⟩ := h
    rcases a with e | v
    · rfl
    · rcases List.mem_cons.mp hx with rfl | hx2
      · rw [isOk_ok_true] at hbad
        exact Bool.noConfusion hbad
      · have hrest := ih ⟨x, hx2, hbad⟩
        simp only [collectOutcomes]
        rcases hc : collectOutcomes rest with e2 | vs
        · rfl
        · rw [hc, isOk_ok_true] at hrest
          exact Bool.noConfusion hrest

theorem runBody_isOk_false_of_write_err (env : RunEnv) (task : TaskInput)
    (results : List TaskResult)
    (h : ∃ k, 1 ≤ k ∧ k ≤ clampCount env.writeCount ∧
      (env.writeOutcome k).isOk = false) :
    (runBody env task results).isOk = false := by
  obtain ⟨k, hk1, hk2, hbad⟩ := h
  unfold runBody
  rcases searchStage env task with m | so
  · rfl
  · rcases resolveWritePrompt env task with _ | wp
    · rfl
    · simp only
      by_cases hone : clampCount env.writeCount = 1
      · rw [if_pos hone]
        have hk : k = 1 := by omega
        subst hk
        rcases hw : env.writeOutcome 1 with e | v
        · rfl
        · rw [hw, isOk_ok_true] at hbad
          exact Bool.noConfusion hbad
      · rw [if_neg hone]
        have hmem : env.writeOutcome k ∈
            (List.range' 1 (clampCount env.writeCount)).map env.writeOutcome :=
          List.mem_map_of_mem env.writeOutcome
            (List.mem_range'_1.mpr ⟨hk1, by omega⟩)
        have hcoll := collectOutcomes_isOk_false ⟨env.writeOutcome k, hmem, hbad⟩
        rcases hc : collectOutcomes
            ((List.range' 1 (clampCount env.writeCount)).map env.writeOutcome) with
          e | outs
        · rfl
        · rw [hc, isOk_ok_true] at hcoll
          exact Bool.noConfusion hcoll

theorem runBody_isOk_false_of_search_err (env : RunEnv) (task : TaskInput)
    (results : List TaskResult) (hns : task.needsSearch = true)
    (hbad : env.searchOutcome.isOk = false) :
    (runBody env task results).isOk = false := by
  unfold runBody searchStage
  rw [hns]
  simp only [if_pos rfl]
  rcases env.apiSearch with _ | cfg
  · rfl
  · rcases selectedSearchPrompt env with _ | sp
    · rfl
    · rcases hs : env.searchOutcome with e | v
      · rfl
      · rw [hs, isOk_ok_true] at hbad
        exact Bool.noConfusion hbad

theorem not_mem_removeRunning (running : List String) (id : String) :
    id ∉ removeRunning running id := by
  intro h
  have := (List.mem_filter.mp h).2
  simp at this

/-- The claim C2 theorem: when the cancellation signal of a work item
aborts its in-flight search call or any of its in-flight write calls
(the outcome the orchestrator consumes is an abort rejection), the
results collection after `runOne` is exactly the prior collection — no
`TaskResult` derived from the aborted run is produced and prior entries
are untouched. -/
theorem C2_abort_produces_no_result (env : RunEnv) (task : TaskInput)
    (results : List TaskResult) (running : List String)
    (h : (task.needsSearch = true ∧
        env.searchOutcome = Except.error CallError.aborted) ∨
      (∃ k, 1 ≤ k ∧ k ≤ clampCount env.writeCount ∧
        env.writeOutcome k = Except.error CallError.aborted)) :
    (runOne env task results running).results = results := by
  have hbody : (runBody env task results).isOk = false := by
    rcases h with ⟨hns, habort⟩ | ⟨k, hk1, hk2, habort⟩
    · exact runBody_isOk_false_of_search_err env task results hns
        (by rw [habort]; rfl)
    · exact runBody_isOk_false_of_write_err env task results
        ⟨k, hk1, hk2, by rw [habort]; rfl⟩
  unfold runOne
  rcases env.apiWrite with _ | cfg
  · rfl
  · simp only
    rcases hb : runBody env task results with m | r2
    · rfl
    · rw [hb, isOk_ok_true] at hbody
      exact Bool.noConfusion hbody


/-- Prompt list entry used by the concrete orchestrator scenarios. -/
def demoPrompt : PromptItem :=
  { id := "wp", name := "写作", category := "文案生成", content := "写一篇文案" }

/-- Write endpoint configuration used by the concrete scenarios. -/
def demoWriteCfg : ModelConfig :=
  { name := "write", baseUrl := "https://api.example.com", apiKey := "k",
    model := "m" }

/-- Concrete environment for the C2 witness: a configured write
endpoint, one resolved write prompt, a single requested variant whose
write call is aborted. -/
def C2env : RunEnv :=
  { apiWrite := some demoWriteCfg,
    apiSearch := none, prompts := [demoPrompt],
    globalPromptId := some "wp", defaultWritePromptId := none,
    defaultSearchPromptId := none, globalGuidance := "", writeCount := 1,
    searchOutcome := Except.ok "",
    writeOutcome := fun _ => Except.error CallError.aborted, now := 9 }

/-- Concrete task for the C2 witness. -/
def C2task : TaskInput :=
  { id := "t9", index := 1, needsSearch := false, raw := "素材" }

/-- Prior entry of another item, untouched by the aborted run. -/
def C2prior : TaskResult :=
  { id := "other", index := 2, raw := "x", writeOutput := "w", createdAt := 1 }

/-- Witness for C2: cancelling the single write call of `C2task`
mid-flight leaves the results collection exactly as it was. -/
theorem C2_abort_witness :
    (runOne C2env C2task [C2prior] []).results = [C2prior] :=
  C2_abort_produces_no_result C2env C2task [C2prior] []
    (Or.inr ⟨1, by decide, by decide, rfl⟩)

/-- Concrete environment for the C1 scenario: three requested variants,
variant 2 fails while variants 1 and 3 succeed. -/
def C1env : RunEnv :=
  { apiWrite := some demoWriteCfg,
    apiSearch := none, prompts := [demoPrompt],
    globalPromptId := some "wp", defaultWritePromptId := none,
    defaultSearchPromptId := none, globalGuidance := "", writeCount := 3,
    searchOutcome := Except.ok "",
    writeOutcome := fun k =>
      if k = 2 then Except.error (CallError.failed "boom")
      else Except.ok ("v" ++ toString k), now := 5 }

/-- Concrete task for the C1 scenario. -/
def C1task : TaskInput :=
  { id := "t", index := 1, needsSearch := false, raw := "素材" }

/-- Counterexample to C1 as stated: with three variants requested and
only variant 2 failing, the results collection stays empty — neither
sibling's `TaskResult` is recorded (the `Promise.all` rejection reaches
the per-item catch before any merge happens) — and one failure toast is
surfaced for the whole item. -/
theorem C1_counterexample_all_or_nothing :
    (runOne C1env C1task [] []).results = [] ∧
      (runOne C1env C1task [] []).error = some "条目 1 处理失败：boom" :=
  ⟨by decide, by decide⟩

/-- The claim C1 theorem (amended form): with a configured write
endpoint and `N ≥ 2` requested variants, whenever any variant's write
call fails (in particular when exactly one fails while its siblings
succeed), the variant set is recorded all-or-nothing: the results
collection is left exactly as it was — no sibling's `TaskResult` is
recorded — a single per-item error is surfaced, and the item still
reaches its terminal cleanup state (it is no longer marked running). -/
theorem C1_variant_failure_discards_all (env : RunEnv) (task : TaskInput)
    (results : List TaskResult) (running : List String)
    (hw : env.apiWrite.isSome = true)
    (_hN : 2 ≤ clampCount env.writeCount)
    (hfail : ∃ k, 1 ≤ k ∧ k ≤ clampCount env.writeCount ∧
      (env.writeOutcome k).isOk = false) :
    (runOne env task results running).results = results ∧
      (runOne env task results running).error.isSome = true ∧
      task.id ∉ (runOne env task results running).running := by
  have hbody := runBody_isOk_false_of_write_err env task results hfail
  unfold runOne
  rcases hwc : env.apiWrite with _ | cfg
  · rw [hwc] at hw
    exact Bool.noConfusion hw
  · simp only
    rcases hb : runBody env task results with m | r2
    · exact ⟨rfl, rfl, not_mem_removeRunning _ _⟩
    · rw [hb, isOk_ok_true] at hbody
      exact Bool.noConfusion hbody

/-- Witness for C1: the amended all-or-nothing law applied to the
concrete three-variant scenario. -/
theorem C1_variant_failure_witness :
    (runOne C1env C1task [] []).results = [] ∧
      (runOne C1env C1task [] []).error.isSome = true ∧
      C1task.id ∉ (runOne C1env C1task [] []).running :=
  C1_variant_failure_discards_all C1env C1task [] [] (by decide) (by decide)
    ⟨2, by decide, by decide, by decide⟩

/-! Permutation facts about the stable sort, and the id-uniqueness
preservation of the three results-collection updaters. -/

theorem insertLe_perm {α : Type} (le : α → α → Bool) (x : α) (l : List α) :
    List.Perm (insertLe le x l) (x :: l) := by
  induction l with
  | nil => exact List.Perm.refl _
  | cons y ys ih =>
    by_cases h : le y x = true
    · simp only [insertLe, if_pos h]
      exact (ih.cons y).trans (List.Perm.swap x y ys)
    · simp only [insertLe, h]
      exact List.Perm.refl _

theorem insSort_foldl_perm {α : Type} (le : α → α → Bool) (l : List α) :
    ∀ acc : List α,
      List.Perm (l.foldl (fun acc x => insertLe le x acc) acc) (acc ++ l) := by
  induction l with
  | nil => intro acc; simp
  | cons x t ih =>
    intro acc
    have h1 := ih (insertLe le x acc)
    have h2 : List.Perm (insertLe le x acc ++ t) ((x :: acc) ++ t) :=
      (insertLe_perm le x acc).append_right t
    have h3 : List.Perm ((x :: acc) ++ t) (acc ++ x :: t) :=
      (@List.perm_middle _ x acc t).symm
    exact (h1.trans h2).trans h3

theorem insSort_perm {α : Type} (le : α → α → Bool) (l : List α) :
    List.Perm (insSort le l) l := by
  simpa using insSort_foldl_perm le l []

theorem mergeSingle_nodup (prior : List TaskResult) (tr : TaskResult)
    (h : (prior.map TaskResult.id).Nodup) :
    ((mergeSingle prior tr).map TaskResult.id).Nodup := by
  have hperm : List.Perm ((mergeSingle prior tr).map TaskResult.id)
      (((prior.filter (fun x => !(x.id == tr.id))) ++ [tr]).map TaskResult.id) :=
    (insSort_perm leIdx _).map TaskResult.id
  refine hperm.nodup_iff.mpr ?_
  rw [List.map_append]
  rw [List.nodup_append]
  refine ⟨?_, List.nodup_singleton _, ?_⟩
  · exact h.sublist ((List.filter_sublist prior).map TaskResult.id)
  · intro a ha hb
    simp only [List.map_cons, List.map_nil, List.mem_singleton] at hb
    obtain ⟨r, hr, hrid⟩ := List.mem_map.mp ha
    have hcond := (List.mem_filter.mp hr).2
    rw [hrid, hb] at hcond
    simp at hcond

theorem mergeVariants_nodup (prior : List TaskResult) (taskId : String)
    (variants : List TaskResult)
    (hp : (prior.map TaskResult.id).Nodup)
    (hv : (variants.map TaskResult.id).Nodup)
    (hfresh : ∀ r ∈ prior, r.parentId ≠ some taskId →
      r.id ∉ variants.map TaskResult.id) :
    ((mergeVariants prior taskId variants).map TaskResult.id).Nodup := by
  have hperm : List.Perm ((mergeVariants prior taskId variants).map TaskResult.id)
      (((prior.filter (fun x => !(x.id == taskId) && !(x.parentId == some taskId)))
        ++ variants).map TaskResult.id) :=
    (insSort_perm leIdxVar _).map TaskResult.id
  refine hperm.nodup_iff.mpr ?_
  rw [List.map_append, List.nodup_append]
  refine ⟨?_, hv, ?_⟩
  · exact hp.sublist ((List.filter_sublist prior).map TaskResult.id)
  · intro a ha
    obtain ⟨r, hr, hrid⟩ := List.mem_map.mp ha
    have hmem := (List.mem_filter.mp hr).1
    have hcond := (List.mem_filter.mp hr).2
    simp only [Bool.and_eq_true, Bool.not_eq_true', beq_eq_false_iff_ne] at hcond
    rw [← hrid]
    exact hfresh r hmem hcond.2

theorem refineUpdate_nodup (prior : List TaskResult) (rid newOut : String)
    (now : Nat) (h : (prior.map TaskResult.id).Nodup) :
    ((refineUpdate prior rid newOut now).map TaskResult.id).Nodup := by
  have hids : (refineUpdate prior rid newOut now).map TaskResult.id =
      prior.map TaskResult.id := by
    unfold refineUpdate
    rw [List.map_map]
    refine List.map_congr_left ?_
    intro x _
    simp only [Function.comp_apply]
    split <;> rfl
  rw [hids]
  exact h

/-- The claim C3 theorem (amended form): every updater of the results
collection preserves id-uniqueness — the single-result merge and the
refine rewrite unconditionally, and the variant-set merge under the
freshness proviso that no prior entry outside the task's own variant set
(parent id different from the task) carries one of the incoming variant
ids.  The proviso is forced by the counterexample: the variant merge
removes prior entries by task id and parent id, not by each incoming
id. -/
theorem C3_updates_preserve_unique_ids :
    (∀ (prior : List TaskResult) (tr : TaskResult),
      (prior.map TaskResult.id).Nodup →
        ((mergeSingle prior tr).map TaskResult.id).Nodup) ∧
      (∀ (prior : List TaskResult) (taskId : String) (variants : List TaskResult),
        (prior.map TaskResult.id).Nodup →
        (variants.map TaskResult.id).Nodup →
        (∀ r ∈ prior, r.parentId ≠ some taskId →
          r.id ∉ variants.map TaskResult.id) →
        ((mergeVariants prior taskId variants).map TaskResult.id).Nodup) ∧
      (∀ (prior : List TaskResult) (rid newOut : String) (now : Nat),
        (prior.map TaskResult.id).Nodup →
          ((refineUpdate prior rid newOut now).map TaskResult.id).Nodup) :=
  ⟨mergeSingle_nodup, mergeVariants_nodup, refineUpdate_nodup⟩

/-- Concrete environment for the C3 counterexample: two requested
variants, both write calls succeed. -/
def C3env : RunEnv :=
  { apiWrite := some demoWriteCfg,
    apiSearch := none, prompts := [demoPrompt],
    globalPromptId := some "wp", defaultWritePromptId := none,
    defaultSearchPromptId := none, globalGuidance := "", writeCount := 2,
    searchOutcome := Except.ok "",
    writeOutcome := fun k => Except.ok ("v" ++ toString k), now := 7 }

/-- Concrete task for the C3 counterexample. -/
def C3task : TaskInput :=
  { id := "t", index := 1, needsSearch := false, raw := "素材" }

/-- Prior results collection for the C3 counterexample: one entry of an
unrelated item whose id happens to be `"t-1"` (reachable, e.g., through
`importAll`, which writes arbitrary ids into the persisted results). -/
def C3prior : List TaskResult :=
  [{ id := "t-1", index := 1, raw := "q", writeOutput := "w",
     createdAt := 0, parentId := some "zzz" }]

/-- Counterexample to C3 as stated: re-running task `"t"` with two
variants merges variant ids `"t-1"`, `"t-2"` into a duplicate-free prior
collection that already held an unrelated `"t-1"` — the variant
replacement removes old entries by task id and parent id only, so the
resulting collection holds two entries with id `"t-1"`. -/
theorem C3_counterexample_duplicate_id :
    ((C3prior.map TaskResult.id).Nodup) ∧
      ¬ (((runOne C3env C3task C3prior []).results.map TaskResult.id).Nodup) :=
  ⟨by decide, by decide⟩

/-- Witness for C3: the variant-merge preservation applied at a concrete
duplicate-free prior collection satisfying the freshness proviso. -/
theorem C3_updates_witness :
    ((mergeVariants
        [{ id := "a", index := 2, raw := "x", writeOutput := "w", createdAt := 1 }]
        "t"
        [{ id := "t-1", index := 1, raw := "r", writeOutput := "v1",
           createdAt := 7, parentId := some "t", variantNo := some 1 },
         { id := "t-2", index := 1, raw := "r", writeOutput := "v2",
           createdAt := 7, parentId := some "t", variantNo := some 2 }]).map
      TaskResult.id).Nodup :=
  C3_updates_preserve_unique_ids.2.1 _ "t" _ (by decide) (by decide)
    (by decide)

/-! Embedding of `extractImageUrls` from `src/lib/openai.ts`: five
independent scans over the same text whose matches are unioned in first
appearance order (a JavaScript `Set`), then a heuristic image filter
with a raw fallback. -/

/-- Insertion-ordered `Set.add`. -/
def addUniq (l : List String) (s : String) : List String :=
  if s ∈ l then l else l ++ [s]

/-- Add every element of a scan's match list to the set. -/
def addAll (l : List String) (xs : List String) : List String :=
  xs.foldl addUniq l

/-- Non-overlapping global scan: at every position try the matcher; on a
match record its capture and continue after the match. -/
def scanCollectAux (m : List Char → Option (String × List Char)) :
    Nat → List Char → List String
  | 0, _ => []
  | _ + 1, [] => []
  | fuel + 1, c :: cs =>
    match m (c :: cs) with
    | some (cap, r) => cap :: scanCollectAux m fuel r
    | none => scanCollectAux m fuel cs

/-- Fuel wrapper for `scanCollectAux`. -/
def scanCollect (m : List Char → Option (String × List Char))
    (l : List Char) : List String :=
  scanCollectAux m (l.length + 1) l

/-- Shared tail of the two Markdown matchers:
`\[[^\]]*\]\(([^)\s]+)(?:\s+"[^"]*")?\)` — bracketed alt text, then the
captured URL (no `)` and no whitespace, at least one character), an
optional whitespace-plus-quoted title, and the closing parenthesis. -/
def mdLinkMatch (l : List Char) : Option (String × List Char) :=
  match l with
  | '[' :: r1 =>
    match r1.dropWhile (fun c => !(c = ']')) with
    | ']' :: '(' :: r3 =>
      let url := r3.takeWhile (fun c => !(c = ')') && !(isJsWs c))
      let r4 := r3.dropWhile (fun c => !(c = ')') && !(isJsWs c))
      if url.isEmpty then none
      else
        match r4 with
        | ')' :: r5 => some (String.mk url, r5)
        | c4 :: _ =>
          if isJsWs c4 then
            match r4.dropWhile isJsWs with
            | '"' :: r6 =>
              match r6.dropWhile (fun c => !(c = '"')) with
              | '"' :: ')' :: r8 => some (String.mk url, r8)
              | _ => none
            | _ => none
          else none
        | [] => none
    | _ => none
  | _ => none

/-- Matcher for the Markdown image syntax `!\[...](url)`. -/
def mdImgMatch (l : List Char) : Option (String × List Char) :=
  match l with
  | '!' :: r0 => mdLinkMatch r0
  | _ => none

/-- Tail of the HTML image matcher after the `[^>]+` attributes prefix:
`src=["']([^"']+)["'][^>]*>` (the two quote characters need not agree). -/
def srcTail (t : List Char) : Option (String × List Char) :=
  match matchCI "src=".data t with
  | none => none
  | some t1 =>
    match t1 with
    | q :: t2 =>
      if q = '"' || q = '\'' then
        let content := t2.takeWhile (fun c => !(c = '"') && !(c = '\''))
        if content.isEmpty then none
        else
          match t2.dropWhile (fun c => !(c = '"') && !(c = '\'')) with
          | _ :: t3 =>
            match t3.dropWhile (fun c => !(c = '>')) with
            | '>' :: t4 => some (String.mk content, t4)
            | _ => none
          | [] => none
      else none
    | [] => none

/-- Greedy backtracking over the `[^>]+` attribute prefix: try the
longest split first, shrinking towards one character. -/
def htmlTryK (r0 : List Char) : Nat → Option (String × List Char)
  | 0 => none
  | k + 1 =>
    match srcTail (r0.drop (k + 1)) with
    | some res => some res
    | none => htmlTryK r0 k

/-- Matcher for `/<img[^>]+src=["']([^"']+)["'][^>]*>/i`. -/
def htmlImgMatch (l : List Char) : Option (String × List Char) :=
  match matchCI "<img".data l with
  | none => none
  | some r0 => htmlTryK r0 (r0.takeWhile (fun c => !(c = '>'))).length

/-- Base64 alphabet `[A-Za-z0-9+/=]`. -/
def isB64 (c : Char) : Bool :=
  isJsWord c && !(c.toNat = 95) || c = '+' || c = '/' || c = '='

/-- Image subtypes of the data-URL scan, in source order. -/
def dataSubtypes : List (List Char) :=
  ["png".data, "jpeg".data, "jpg".data, "webp".data, "gif".data]

/-- Matcher for `/data:image\/(?:png|jpeg|jpg|webp|gif);base64,[A-Za-z0-9+\/=]+/i`;
the capture is the whole match. -/
def dataUrlMatch (l : List Char) : Option (String × List Char) :=
  match matchCI "data:image/".data l with
  | none => none
  | some r0 =>
    match tryAltsThen
        (fun r1 =>
          match matchCI ";base64,".data r1 with
          | none => none
          | some r2 =>
            let b := r2.takeWhile isB64
            if b.isEmpty then none else some (r2.dropWhile isB64))
        dataSubtypes r0 with
    | none => none
    | some r => some (String.mk (l.take (l.length - r.length)), r)

/-- Host characters `[\w.-]` of the bare-URL scan. -/
def isHostChar (c : Char) : Bool :=
  isJsWord c || c = '.' || c = '-'

/-- Path characters `[\w\-._~:\/?#\[\]@!$&'()*+,;=%]` of the bare-URL
scan — note the closing parenthesis is a member. -/
def isPathChar (c : Char) : Bool :=
  isJsWord c || c = '-' || c = '.' || c = '_' || c = '~' || c = ':' ||
  c = '/' || c = '?' || c = '#' || c = '[' || c = ']' || c = '@' ||
  c = '!' || c = '$' || c = '&' || c = '\'' || c = '(' || c = ')' ||
  c = '*' || c = '+' || c = ',' || c = ';' || c = '=' || c = '%'

/-- Matcher for `/(https?:\/\/[\w.-]+(?:\/[\w\-._~:\/?#\[\]@!$&'()*+,;=%]*)?)/i`;
the capture is the whole match. -/
def urlMatch (l : List Char) : Option (String × List Char) :=
  match matchCI "http".data l with
  | none => none
  | some r0 =>
    let afterProto :=
      match r0 with
      | c :: rest =>
        if lowerAscii c = 's' then
          match matchLit "://".data rest with
          | some r2 => some r2
          | none => matchLit "://".data r0
        else matchLit "://".data r0
      | [] => none
    match afterProto with
    | none => none
    | some r2 =>
      let host := r2.takeWhile isHostChar
      if host.isEmpty then none
      else
        let r3 := r2.dropWhile isHostChar
        let r4 :=
          match r3 with
          | '/' :: rp => rp.dropWhile isPathChar
          | _ => r3
        some (String.mk (l.take (l.length - r4.length)), r4)

/-- Line terminators that JavaScript `.` (without the `s` flag) does not
match, used by the extension test's `(?:\?.*)?$`. -/
def isRegexLineTerm (c : Char) : Bool :=
  c = '\n' || c = '\r' || c = '\u2028' || c = '\u2029'

/-- Tail condition of `/\.(png|jpg|jpeg|webp|gif)(?:\?.*)?$/i` after the
extension: end of string, or a query string free of line terminators
running to the end. -/
def extTailOk (r : List Char) : Bool :=
  match r with
  | [] => true
  | '?' :: q => q.all (fun c => !(isRegexLineTerm c))
  | _ => false

/-- Extensions of the image filter, in source order. -/
def filterExts : List (List Char) :=
  ["png".data, "jpg".data, "jpeg".data, "webp".data, "gif".data]

/-- Test of `/\.(png|jpg|jpeg|webp|gif)(?:\?.*)?$/i`. -/
def extTest : List Char → Bool
  | [] => false
  | c :: cs =>
    (c = '.' && filterExts.any (fun e =>
      match matchCI e cs with
      | some r => extTailOk r
      | none => false)) || extTest cs

/-- Query words of `/(?:image|format|ext)=(?:png|jpg|jpeg|webp|gif)/i`. -/
def queryWords : List (List Char) :=
  ["image=".data, "format=".data, "ext=".data]

/-- Test of the query-hint regex. -/
def queryHintTest : List Char → Bool
  | [] => false
  | c :: cs =>
    queryWords.any (fun w =>
      match matchCI w (c :: cs) with
      | some r => filterExts.any (fun e => (matchCI e r).isSome)
      | none => false) || queryHintTest cs

/-- Path segments of the CDN heuristic `/(?:images|img|media|cdn)\//i`. -/
def cdnWords : List (List Char) :=
  ["images/".data, "img/".data, "media/".data, "cdn/".data]

/-- The `isProbablyImageUrl` heuristic: data URL, image extension
(optionally before a query string), image-format query hint, or an
image/media/CDN path segment. -/
def isProbablyImageUrl (u : String) : Bool :=
  (matchLit "data:image/".data u.data).isSome ||
  extTest u.data ||
  queryHintTest u.data ||
  containsTokenCI cdnWords u.data

/-- Embedding of `extractImageUrls`: union the five scans in first
appearance order, filter through `isProbablyImageUrl`, and fall back to
the full unfiltered set when the filter leaves nothing. -/
def extractImageUrls (text : String) : List String :=
  let s := text.data
  let urls :=
    addAll (addAll (addAll (addAll (addAll [] (scanCollect mdImgMatch s))
      (scanCollect mdLinkMatch s)) (scanCollect htmlImgMatch s))
      (scanCollect dataUrlMatch s)) (scanCollect urlMatch s)
  let lst := urls.filter isProbablyImageUrl
  if lst.isEmpty then addAll [] urls else addAll [] lst

/-- Counterexample to C8 as stated: the extractor applied to
`"![cover](https://cdn.example.com/img/a.png)"` does not return the
one-element list of the claim. -/
theorem C8_counterexample_not_singleton :
    extractImageUrls "![cover](https://cdn.example.com/img/a.png)" ≠
      ["https://cdn.example.com/img/a.png"] := by
  decide

/-- The claim C8 theorem (amended form): on that input the extractor
returns exactly two locators in first-appearance order — the clean URL
captured by the Markdown image scan, and the same URL with the closing
parenthesis attached, captured by the bare-URL scan (whose path class
contains `)`), both surviving the image filter (extension match for the
first; `img/` path-segment heuristic for the second). -/
theorem C8_extract_both_urls :
    extractImageUrls "![cover](https://cdn.example.com/img/a.png)" =
      ["https://cdn.example.com/img/a.png",
        "https://cdn.example.com/img/a.png)"] := by
  decide
